import Mathlib

/-!
Shallow embedding of `src/affective_core.py` (affective-geometry-consciousness):
the drive / interoception update-and-aggregation engine of the affective core.
Numbers are modelled as rationals; `np.clip` and Python `abs` are modelled by
explicit executable `if`-based functions below.
-/

/-- The 7 core biological drives (Python enum `DriveType`). -/
inductive DriveType
  | SEEK | AVOID | REST | CARE | PLAY | RAGE | LUST
deriving DecidableEq

/-- Iteration order of `self.drives` (Python dict insertion order). -/
def driveOrder : List DriveType :=
  [.SEEK, .AVOID, .REST, .CARE, .PLAY, .RAGE, .LUST]

/-- Executable maximum on rationals. -/
def ratMax (x y : ℚ) : ℚ := if x ≤ y then y else x

/-- Executable minimum on rationals. -/
def ratMin (x y : ℚ) : ℚ := if x ≤ y then x else y

/-- `np.clip(x, lo, hi)`. -/
def clip (x lo hi : ℚ) : ℚ := ratMin (ratMax x lo) hi

/-- Python `abs`. -/
def ratAbs (x : ℚ) : ℚ := if x ≤ 0 then -x else x

/-- `list.append(x)` followed by `if len > n: list.pop(0)` — the bounded
history push used for all three histories. -/
def pushBounded {α : Type} (n : Nat) (x : α) (l : List α) : List α :=
  let l' := l ++ [x]
  if l'.length > n then l'.tail else l'

/-- Python dataclass `DriveState`. -/
structure DriveState where
  drive_type : DriveType
  current_level : ℚ
  optimal_level : ℚ
  urgency : ℚ
  satisfaction_history : List ℚ
deriving DecidableEq

/-- `DriveState.tension`: distance from the optimal level. -/
def DriveState.tension (s : DriveState) : ℚ :=
  ratAbs (s.current_level - s.optimal_level)

/-- `DriveState.update(stimulus, delta_time)`: homeostatic drift plus stimulus
effect, clipped to [0,1]; urgency recomputed from the new level; new level
appended to the bounded history. -/
def DriveState.update (s : DriveState) (stimulus delta_time : ℚ) : DriveState :=
  let homeostasis := (s.optimal_level - s.current_level) * (1/10)
  let stimulus_effect := stimulus * delta_time
  let newLevel := clip (s.current_level + homeostasis + stimulus_effect) 0 1
  let s' : DriveState := { s with current_level := newLevel }
  { s' with
    urgency := s'.tension
    satisfaction_history := pushBounded 100 s'.current_level s.satisfaction_history }

/-- Python dataclass `InteroceptiveSignal`; the `optimal_range` tuple is split
into its two components. -/
structure InteroceptiveSignal where
  signal_type : String
  current_value : ℚ
  optimal_low : ℚ
  optimal_high : ℚ
  affective_weight : ℚ
deriving DecidableEq

/-- `InteroceptiveSignal.is_optimal`. -/
def InteroceptiveSignal.is_optimal (s : InteroceptiveSignal) : Bool :=
  decide (s.optimal_low ≤ s.current_value) && decide (s.current_value ≤ s.optimal_high)

/-- `InteroceptiveSignal.deviation`. -/
def InteroceptiveSignal.deviation (s : InteroceptiveSignal) : ℚ :=
  if s.current_value < s.optimal_low then s.optimal_low - s.current_value
  else if s.current_value > s.optimal_high then s.current_value - s.optimal_high
  else 0

/-- The 4 fixed interoceptive signal names. -/
inductive SignalName
  | energy | integrity | comfort | social_connection
deriving DecidableEq

/-- Iteration order of `self.interoceptive_signals` (dict insertion order). -/
def signalOrder : List SignalName :=
  [.energy, .integrity, .comfort, .social_connection]

/-- The membership test `signal_name in self.interoceptive_signals` on an
arbitrary string key. -/
def parseSignalName (s : String) : Option SignalName :=
  if s = "energy" then some .energy
  else if s = "integrity" then some .integrity
  else if s = "comfort" then some .comfort
  else if s = "social_connection" then some .social_connection
  else none

/-- One record of `affective_history`. -/
structure Snapshot where
  timestamp : Nat
  tension : ℚ
  drive_states : DriveType → ℚ
  interoceptive_states : SignalName → ℚ

/-- Per-drive entry of `get_affective_summary`'s `drive_states`. -/
structure DriveSummary where
  level : ℚ
  urgency : ℚ
  tension : ℚ

/-- Per-signal entry of `get_affective_summary`'s `interoceptive_states`. -/
structure SignalSummary where
  value : ℚ
  optimal : Bool
  deviation : ℚ

/-- The record returned by `get_affective_summary`. -/
structure Summary where
  current_tension : ℚ
  affective_conflict : ℚ
  dominant_drive : Option DriveType
  dominant_urgency : ℚ
  drive_states : DriveType → DriveSummary
  interoceptive_states : SignalName → SignalSummary
  developmental_stage : Nat

/-- One record of `decision_history` (the caller-supplied `context` is an
opaque value, modelled as a string). -/
structure Decision where
  timestamp : Nat
  context : String
  choice : String
  affective_state : Summary

/-- The mutable state of class `AffectiveCore` (the unused `config` dict is
omitted). -/
structure AffectiveCore where
  drives : DriveType → DriveState
  interoceptive_signals : SignalName → InteroceptiveSignal
  affective_history : List Snapshot
  decision_history : List Decision
  current_tension : ℚ
  developmental_stage : Nat

/-- `_initialize_drives`. -/
def initDrives : DriveType → DriveState
  | .SEEK => ⟨.SEEK, 1/2, 6/10, 0, []⟩
  | .AVOID => ⟨.AVOID, 3/10, 1/10, 0, []⟩
  | .REST => ⟨.REST, 1/2, 7/10, 0, []⟩
  | .CARE => ⟨.CARE, 4/10, 1/2, 0, []⟩
  | .PLAY => ⟨.PLAY, 3/10, 4/10, 0, []⟩
  | .RAGE => ⟨.RAGE, 1/10, 1/20, 0, []⟩
  | .LUST => ⟨.LUST, 2/10, 3/10, 0, []⟩

/-- `_initialize_interoception`. -/
def initSignals : SignalName → InteroceptiveSignal
  | .energy => ⟨"energy", 8/10, 6/10, 9/10, 9/10⟩
  | .integrity => ⟨"integrity", 1, 8/10, 1, 1⟩
  | .comfort => ⟨"comfort", 7/10, 1/2, 8/10, 6/10⟩
  | .social_connection => ⟨"social_connection", 1/2, 4/10, 7/10, 7/10⟩

/-- `AffectiveCore.__init__`: the freshly constructed core. -/
def AffectiveCore.start : AffectiveCore :=
  { drives := initDrives
    interoceptive_signals := initSignals
    affective_history := []
    decision_history := []
    current_tension := 0
    developmental_stage := 1 }

/-- The `for drive_type, drive_state in self.drives.items()` loop of
`update_drives`: updates every drive in place and accumulates
`total_tension += urgency * tension()`. -/
def updateDrivesLoop (drives : DriveType → DriveState)
    (external_stimuli : DriveType → ℚ) (delta_time : ℚ) :
    (DriveType → DriveState) × ℚ :=
  driveOrder.foldl
    (fun acc d =>
      let stimulus := external_stimuli d
      let ds := (acc.1 d).update stimulus delta_time
      (fun x => if x = d then ds else acc.1 x, acc.2 + ds.urgency * ds.tension))
    (drives, 0)

/-- `_compute_interoceptive_tension`. -/
def AffectiveCore.compute_interoceptive_tension (c : AffectiveCore) : ℚ :=
  signalOrder.foldl
    (fun tension n =>
      let signal := c.interoceptive_signals n
      if signal.is_optimal then tension
      else tension + signal.deviation * signal.affective_weight)
    0

/-- `update_drives(external_stimuli, delta_time)`; `external_stimuli` is given
as the total lookup function `d ↦ external_stimuli.get(d, 0.0)`.  Returns the
new core state together with the returned total tension. -/
def AffectiveCore.update_drives (c : AffectiveCore)
    (external_stimuli : DriveType → ℚ) (delta_time : ℚ) :
    AffectiveCore × ℚ :=
  let r := updateDrivesLoop c.drives external_stimuli delta_time
  let c1 : AffectiveCore := { c with drives := r.1 }
  let total_tension := r.2 + c1.compute_interoceptive_tension
  let snap : Snapshot :=
    { timestamp := c1.affective_history.length
      tension := total_tension
      drive_states := fun d => (c1.drives d).current_level
      interoceptive_states := fun n => (c1.interoceptive_signals n).current_value }
  ({ c1 with
      current_tension := total_tension
      affective_history := pushBounded 1000 snap c1.affective_history },
   total_tension)

/-- One iteration of the `update_interoception` loop: skip an unknown name,
otherwise add the delta to the signal's value and clip to [0,1]. -/
def interoStep (c' : AffectiveCore) (p : String × ℚ) : AffectiveCore :=
  match parseSignalName p.1 with
  | none => c'
  | some n =>
    let s := c'.interoceptive_signals n
    let s' := { s with current_value := clip (s.current_value + p.2) 0 1 }
    { c' with interoceptive_signals := fun m => if m = n then s' else c'.interoceptive_signals m }

/-- `update_interoception(internal_changes)`; the changes dict is modelled as
an association list iterated in order, with arbitrary string keys. -/
def AffectiveCore.update_interoception (c : AffectiveCore)
    (internal_changes : List (String × ℚ)) : AffectiveCore :=
  internal_changes.foldl interoStep c

/-- `get_dominant_drive`. -/
def AffectiveCore.get_dominant_drive (c : AffectiveCore) : Option DriveType × ℚ :=
  driveOrder.foldl
    (fun acc d =>
      if (c.drives d).urgency > acc.2 then (some d, (c.drives d).urgency) else acc)
    (none, -1)

/-- The `urgency > 0.3` filter building `urgent_drives`. -/
def AffectiveCore.urgentDrives (c : AffectiveCore) : List DriveType :=
  driveOrder.filter (fun d => decide ((c.drives d).urgency > 3/10))

/-- `_drives_opposed`. -/
def drivesOpposed (drive1 drive2 : DriveType) : Bool :=
  let opposed_pairs : List (DriveType × DriveType) :=
    [(.SEEK, .AVOID), (.RAGE, .CARE), (.PLAY, .REST)]
  opposed_pairs.contains (drive1, drive2) || opposed_pairs.contains (drive2, drive1)

/-- The nested pair loop of `compute_affective_conflict`, threading the
running `conflict` accumulator. -/
def pairConflicts (u : DriveType → ℚ) : List DriveType → ℚ → ℚ
  | [], conflict => conflict
  | d :: rest, conflict =>
    pairConflicts u rest
      (rest.foldl (fun a x => if drivesOpposed d x then a + u d * u x else a) conflict)

/-- `compute_affective_conflict`. -/
def AffectiveCore.compute_affective_conflict (c : AffectiveCore) : ℚ :=
  let urgent := c.urgentDrives
  if urgent.length < 2 then 0
  else pairConflicts (fun d => (c.drives d).urgency) urgent 0

/-- `get_affective_summary`. -/
def AffectiveCore.get_affective_summary (c : AffectiveCore) : Summary :=
  let r := c.get_dominant_drive
  { current_tension := c.current_tension
    affective_conflict := c.compute_affective_conflict
    dominant_drive := r.1
    dominant_urgency := r.2
    drive_states := fun d =>
      { level := (c.drives d).current_level
        urgency := (c.drives d).urgency
        tension := (c.drives d).tension }
    interoceptive_states := fun n =>
      { value := (c.interoceptive_signals n).current_value
        optimal := (c.interoceptive_signals n).is_optimal
        deviation := (c.interoceptive_signals n).deviation }
    developmental_stage := c.developmental_stage }

/-- `record_decision(decision_context, choice)`. -/
def AffectiveCore.record_decision (c : AffectiveCore)
    (decision_context choice : String) : AffectiveCore :=
  let entry : Decision :=
    { timestamp := c.decision_history.length
      context := decision_context
      choice := choice
      affective_state := c.get_affective_summary }
  { c with decision_history := pushBounded 500 entry c.decision_history }

/-- `advance_developmental_stage`. -/
def AffectiveCore.advance_developmental_stage (c : AffectiveCore) : AffectiveCore :=
  if c.developmental_stage < 3 then
    if c.developmental_stage + 1 = 2 then
      { c with
        developmental_stage := c.developmental_stage + 1
        drives := fun d =>
          if d = .SEEK then { c.drives .SEEK with optimal_level := 7/10 }
          else if d = .PLAY then { c.drives .PLAY with optimal_level := 6/10 }
          else c.drives d }
    else if c.developmental_stage + 1 = 3 then
      { c with
        developmental_stage := c.developmental_stage + 1
        drives := fun d => { c.drives d with optimal_level := 1/2 } }
    else { c with developmental_stage := c.developmental_stage + 1 }
  else c

/-- A caller-supplied Python value for a stimulus: a number, or something
non-numeric (which makes `stimulus * delta_time` raise a TypeError). -/
inductive PyVal
  | num (q : ℚ)
  | nonNum
deriving DecidableEq

/-- Numeric value of a `PyVal` (0 for the non-numeric case; only used where
numericity is already known). -/
def PyVal.toQ : PyVal → ℚ
  | .num q => q
  | .nonNum => 0

/-- `DriveState.update` with a possibly non-numeric stimulus: the TypeError in
`stimulus * delta_time` fires before any field is assigned, so a failing call
leaves this drive unchanged. -/
def DriveState.updateE (s : DriveState) (stimulus : PyVal) (delta_time : ℚ) :
    Except Unit DriveState :=
  match stimulus with
  | .nonNum => .error ()
  | .num q => .ok (s.update q delta_time)

/-- The `update_drives` loop with possibly non-numeric stimuli: a raised
TypeError propagates, keeping the in-place mutations applied so far. -/
def updateDrivesLoopE : List DriveType → (DriveType → DriveState) →
    (DriveType → PyVal) → ℚ → ℚ →
    Except (DriveType → DriveState) ((DriveType → DriveState) × ℚ)
  | [], drives, _, _, total => .ok (drives, total)
  | d :: rest, drives, stim, delta_time, total =>
    match (drives d).updateE (stim d) delta_time with
    | .error _ => .error drives
    | .ok ds =>
      updateDrivesLoopE rest (fun x => if x = d then ds else drives x) stim delta_time
        (total + ds.urgency * ds.tension)

/-- `update_drives` with possibly non-numeric stimuli.  On error the escaping
exception leaves the core with the drive mutations applied before the failure
(current_tension, histories and signals untouched). -/
def AffectiveCore.update_drivesE (c : AffectiveCore)
    (external_stimuli : DriveType → PyVal) (delta_time : ℚ) :
    Except AffectiveCore (AffectiveCore × ℚ) :=
  match updateDrivesLoopE driveOrder c.drives external_stimuli delta_time 0 with
  | .error drives' => .error { c with drives := drives' }
  | .ok (drives', total) =>
    let c1 : AffectiveCore := { c with drives := drives' }
    let total_tension := total + c1.compute_interoceptive_tension
    let snap : Snapshot :=
      { timestamp := c1.affective_history.length
        tension := total_tension
        drive_states := fun d => (c1.drives d).current_level
        interoceptive_states := fun n => (c1.interoceptive_signals n).current_value }
    .ok ({ c1 with
            current_tension := total_tension
            affective_history := pushBounded 1000 snap c1.affective_history },
         total_tension)

/-- A key of the Python `external_stimuli` dict: either one of the 7 drive
kinds, or some other (unknown) key. -/
inductive StimKey
  | drive (d : DriveType)
  | other (s : String)
deriving DecidableEq

/-- `external_stimuli.get(d, 0.0)` on an association-list dict. -/
def lookupStim (m : List (StimKey × ℚ)) (d : DriveType) : ℚ :=
  match m.find? (fun p => decide (p.1 = StimKey.drive d)) with
  | some p => p.2
  | none => 0

/-- `update_drives` taking the stimuli as a dict with arbitrary keys. -/
def AffectiveCore.update_drives_dict (c : AffectiveCore)
    (external_stimuli : List (StimKey × ℚ)) (delta_time : ℚ) :
    AffectiveCore × ℚ :=
  c.update_drives (lookupStim external_stimuli) delta_time

/-- A public mutating operation of the core (used to quantify over operation
sequences). -/
inductive CoreOp
  | update_drives (external_stimuli : DriveType → ℚ) (delta_time : ℚ)
  | update_interoception (internal_changes : List (String × ℚ))
  | record_decision (decision_context choice : String)
  | advance_developmental_stage

/-- Apply one public operation. -/
def applyOp (c : AffectiveCore) : CoreOp → AffectiveCore
  | .update_drives stim dt => (c.update_drives stim dt).1
  | .update_interoception changes => c.update_interoception changes
  | .record_decision ctx choice => c.record_decision ctx choice
  | .advance_developmental_stage => c.advance_developmental_stage

/-- Run a sequence of public operations. -/
def runOps (c : AffectiveCore) (ops : List CoreOp) : AffectiveCore :=
  ops.foldl applyOp c

/-- Closed form of the nested conflict loop: for each list head, the opposed
products against the remaining elements, summed over all suffixes. -/
def specPairs (u : DriveType → ℚ) : List DriveType → ℚ
  | [] => 0
  | d :: rest =>
    (rest.map (fun x => if drivesOpposed d x then u d * u x else 0)).sum
      + specPairs u rest

/-- One step of the `get_dominant_drive` scan: strict `>` against the running
maximum. -/
def dominantStep (u : DriveType → ℚ) (acc : Option DriveType × ℚ)
    (x : DriveType) : Option DriveType × ℚ :=
  if u x > acc.2 then (some x, u x) else acc

/-- Concrete stimuli with a non-numeric value for AVOID (and a numeric one for
SEEK, which is iterated first). -/
def c8stim : DriveType → PyVal
  | .SEEK => .num 1
  | .AVOID => .nonNum
  | _ => .num 0

/-- The core state left behind when `update_drives` raises on `c8stim`:
SEEK already updated in place, everything else untouched. -/
def c8leftover : AffectiveCore :=
  { AffectiveCore.start with
    drives := fun x =>
      if x = .SEEK then (AffectiveCore.start.drives .SEEK).update 1 1
      else AffectiveCore.start.drives x }

/-- Concrete stimuli driving SEEK and AVOID to urgencies above 0.3. -/
def c6stim : DriveType → ℚ
  | .SEEK => -1
  | .AVOID => 1
  | _ => 0

/-- A core with exactly two urgent drives (SEEK and AVOID). -/
def c6core : AffectiveCore :=
  (AffectiveCore.start.update_drives c6stim 1).1

/-- A fresh core after one `update_drives` tick and one developmental-stage
advance (the advance changes SEEK's optimal level without recomputing its
urgency). -/
def c3core : AffectiveCore :=
  runOps AffectiveCore.start
    [CoreOp.update_drives (fun _ => 0) 1, CoreOp.advance_developmental_stage]

/-- A throwaway snapshot used to exercise the 1000-entry eviction rule. -/
def snap0 : Snapshot := ⟨0, 0, fun _ => 0, fun _ => 0⟩

/-- A throwaway summary record. -/
def summary0 : Summary :=
  ⟨0, 0, none, 0, fun _ => ⟨0, 0, 0⟩, fun _ => ⟨0, true, 0⟩, 1⟩

/-- A throwaway decision record used to exercise the 500-entry eviction rule. -/
def decision0 : Decision := ⟨0, "", "", summary0⟩

/-! ## Helper lemmas -/

theorem ratMax_eq (x y : ℚ) : ratMax x y = max x y := by
  unfold ratMax
  rcases le_or_lt x y with h | h
  · simp [h, max_eq_right h]
  · simp [not_le.mpr h, max_eq_left h.le]

theorem ratMin_eq (x y : ℚ) : ratMin x y = min x y := by
  unfold ratMin
  rcases le_or_lt x y with h | h
  · simp [h, min_eq_left h]
  · simp [not_le.mpr h, min_eq_right h.le]

theorem ratAbs_eq (x : ℚ) : ratAbs x = |x| := by
  unfold ratAbs
  rcases le_or_lt x 0 with h | h
  · simp [h, abs_of_nonpos h]
  · simp [not_le.mpr h, abs_of_pos h]

theorem clip01_nonneg (x : ℚ) : 0 ≤ clip x 0 1 := by
  unfold clip ratMin ratMax; split_ifs <;> linarith

theorem clip01_le_one (x : ℚ) : clip x 0 1 ≤ 1 := by
  unfold clip ratMin ratMax; split_ifs <;> linarith

theorem DriveState.update_level (s : DriveState) (stimulus delta_time : ℚ) :
    (s.update stimulus delta_time).current_level =
      clip (s.current_level + (s.optimal_level - s.current_level) * (1/10)
              + stimulus * delta_time) 0 1 := rfl

theorem DriveState.update_optimal (s : DriveState) (stimulus delta_time : ℚ) :
    (s.update stimulus delta_time).optimal_level = s.optimal_level := rfl

theorem DriveState.update_kind (s : DriveState) (stimulus delta_time : ℚ) :
    (s.update stimulus delta_time).drive_type = s.drive_type := rfl

theorem DriveState.update_urgency (s : DriveState) (stimulus delta_time : ℚ) :
    (s.update stimulus delta_time).urgency =
      ratAbs ((s.update stimulus delta_time).current_level - s.optimal_level) := rfl

theorem DriveState.update_hist (s : DriveState) (stimulus delta_time : ℚ) :
    (s.update stimulus delta_time).satisfaction_history =
      pushBounded 100 (s.update stimulus delta_time).current_level
        s.satisfaction_history := rfl

theorem DriveState.update_urgency_eq_tension (s : DriveState) (stimulus delta_time : ℚ) :
    (s.update stimulus delta_time).urgency = (s.update stimulus delta_time).tension := rfl

theorem updateDrivesLoop_fst (drives : DriveType → DriveState)
    (stim : DriveType → ℚ) (delta_time : ℚ) :
    (updateDrivesLoop drives stim delta_time).1 =
      fun d => (drives d).update (stim d) delta_time := by
  funext d
  cases d <;> simp [updateDrivesLoop, driveOrder]

theorem updateDrivesLoop_snd (drives : DriveType → DriveState)
    (stim : DriveType → ℚ) (delta_time : ℚ) :
    (updateDrivesLoop drives stim delta_time).2 =
      (driveOrder.map
        (fun d => ((drives d).update (stim d) delta_time).tension ^ 2)).sum := by
  simp [updateDrivesLoop, driveOrder, DriveState.update_urgency_eq_tension]
  ring

theorem ratAbs_nonneg (x : ℚ) : 0 ≤ ratAbs x := by
  unfold ratAbs; split_ifs <;> linarith

theorem pushBounded_length {α : Type} (n : Nat) (x : α) (l : List α)
    (h : l.length ≤ n) : (pushBounded n x l).length ≤ n := by
  simp only [pushBounded]
  split
  · simp; omega
  · next h' => simp at h' ⊢; omega

theorem pushBounded_full {α : Type} (n : Nat) (x : α) (l : List α)
    (h : l.length = n) (hn : 0 < n) : pushBounded n x l = l.tail ++ [x] := by
  simp only [pushBounded]
  rw [if_pos (by simp [h])]
  cases l with
  | nil => simp at h; omega
  | cons a t => simp

theorem pushBounded_not_full {α : Type} (n : Nat) (x : α) (l : List α)
    (h : l.length < n) : pushBounded n x l = l ++ [x] := by
  simp only [pushBounded]
  rw [if_neg (by simp; omega)]

/-- The invariant maintained by every public operation: levels, urgencies and
signal values stay in range and all three histories stay within their bounds. -/
def CoreInv (c : AffectiveCore) : Prop :=
  (∀ d, 0 ≤ (c.drives d).current_level ∧ (c.drives d).current_level ≤ 1) ∧
  (∀ d, 0 ≤ (c.drives d).urgency) ∧
  (∀ n, 0 ≤ (c.interoceptive_signals n).current_value ∧
        (c.interoceptive_signals n).current_value ≤ 1) ∧
  (∀ d, (c.drives d).satisfaction_history.length ≤ 100) ∧
  c.affective_history.length ≤ 1000 ∧
  c.decision_history.length ≤ 500

theorem update_drives_fst_drives (c : AffectiveCore)
    (stim : DriveType → ℚ) (delta_time : ℚ) :
    (c.update_drives stim delta_time).1.drives =
      fun d => (c.drives d).update (stim d) delta_time := by
  show (updateDrivesLoop c.drives stim delta_time).1 = _
  exact updateDrivesLoop_fst c.drives stim delta_time

theorem update_drives_fst_signals (c : AffectiveCore)
    (stim : DriveType → ℚ) (delta_time : ℚ) :
    (c.update_drives stim delta_time).1.interoceptive_signals =
      c.interoceptive_signals := rfl

theorem update_drives_fst_decisions (c : AffectiveCore)
    (stim : DriveType → ℚ) (delta_time : ℚ) :
    (c.update_drives stim delta_time).1.decision_history = c.decision_history := rfl

theorem update_drives_fst_stage (c : AffectiveCore)
    (stim : DriveType → ℚ) (delta_time : ℚ) :
    (c.update_drives stim delta_time).1.developmental_stage =
      c.developmental_stage := rfl

theorem update_drives_fst_hist (c : AffectiveCore)
    (stim : DriveType → ℚ) (delta_time : ℚ) :
    ∃ snap, (c.update_drives stim delta_time).1.affective_history =
      pushBounded 1000 snap c.affective_history := ⟨_, rfl⟩

theorem interoStep_drives (c : AffectiveCore) (p : String × ℚ) :
    (interoStep c p).drives = c.drives := by
  unfold interoStep
  cases parseSignalName p.1 <;> rfl

theorem interoStep_hist (c : AffectiveCore) (p : String × ℚ) :
    (interoStep c p).affective_history = c.affective_history ∧
    (interoStep c p).decision_history = c.decision_history ∧
    (interoStep c p).developmental_stage = c.developmental_stage ∧
    (interoStep c p).current_tension = c.current_tension := by
  unfold interoStep
  cases parseSignalName p.1 <;> exact ⟨rfl, rfl, rfl, rfl⟩

theorem interoStep_values (c : AffectiveCore) (p : String × ℚ)
    (h : ∀ n, 0 ≤ (c.interoceptive_signals n).current_value ∧
              (c.interoceptive_signals n).current_value ≤ 1) :
    ∀ n, 0 ≤ ((interoStep c p).interoceptive_signals n).current_value ∧
         ((interoStep c p).interoceptive_signals n).current_value ≤ 1 := by
  intro n
  unfold interoStep
  cases parseSignalName p.1 with
  | none => exact h n
  | some m =>
    by_cases hnm : n = m
    · subst hnm
      simp only []
      constructor
      · simpa using (by simp [clip01_nonneg] :
          (0:ℚ) ≤ clip ((c.interoceptive_signals n).current_value + p.2) 0 1)
      · simpa using (by simp [clip01_le_one] :
          clip ((c.interoceptive_signals n).current_value + p.2) 0 1 ≤ 1)
    · simpa [hnm] using h n

theorem update_interoception_cons (c : AffectiveCore) (p : String × ℚ)
    (rest : List (String × ℚ)) :
    c.update_interoception (p :: rest) = (interoStep c p).update_interoception rest := rfl

theorem update_interoception_drives (changes : List (String × ℚ)) (c : AffectiveCore) :
    (c.update_interoception changes).drives = c.drives := by
  induction changes generalizing c with
  | nil => rfl
  | cons p rest ih =>
    rw [update_interoception_cons, ih, interoStep_drives]

theorem update_interoception_other_fields (changes : List (String × ℚ)) (c : AffectiveCore) :
    (c.update_interoception changes).affective_history = c.affective_history ∧
    (c.update_interoception changes).decision_history = c.decision_history ∧
    (c.update_interoception changes).developmental_stage = c.developmental_stage ∧
    (c.update_interoception changes).current_tension = c.current_tension := by
  induction changes generalizing c with
  | nil => exact ⟨rfl, rfl, rfl, rfl⟩
  | cons p rest ih =>
    rw [update_interoception_cons]
    obtain ⟨h1, h2, h3, h4⟩ := ih (interoStep c p)
    obtain ⟨g1, g2, g3, g4⟩ := interoStep_hist c p
    exact ⟨h1.trans g1, h2.trans g2, h3.trans g3, h4.trans g4⟩

theorem update_interoception_values (changes : List (String × ℚ)) (c : AffectiveCore)
    (h : ∀ n, 0 ≤ (c.interoceptive_signals n).current_value ∧
              (c.interoceptive_signals n).current_value ≤ 1) :
    ∀ n, 0 ≤ ((c.update_interoception changes).interoceptive_signals n).current_value ∧
         ((c.update_interoception changes).interoceptive_signals n).current_value ≤ 1 := by
  induction changes generalizing c with
  | nil => exact h
  | cons p rest ih =>
    rw [update_interoception_cons]
    exact ih _ (interoStep_values c p h)

theorem record_decision_fields (c : AffectiveCore) (ctx choice : String) :
    (c.record_decision ctx choice).drives = c.drives ∧
    (c.record_decision ctx choice).interoceptive_signals = c.interoceptive_signals ∧
    (c.record_decision ctx choice).affective_history = c.affective_history ∧
    (c.record_decision ctx choice).developmental_stage = c.developmental_stage ∧
    (c.record_decision ctx choice).current_tension = c.current_tension ∧
    (c.record_decision ctx choice).decision_history =
      pushBounded 500 { timestamp := c.decision_history.length, context := ctx,
                        choice := choice, affective_state := c.get_affective_summary }
        c.decision_history :=
  ⟨rfl, rfl, rfl, rfl, rfl, rfl⟩

theorem advance_drive_fields (c : AffectiveCore) (d : DriveType) :
    ((c.advance_developmental_stage).drives d).current_level = (c.drives d).current_level ∧
    ((c.advance_developmental_stage).drives d).urgency = (c.drives d).urgency ∧
    ((c.advance_developmental_stage).drives d).satisfaction_history =
      (c.drives d).satisfaction_history := by
  unfold AffectiveCore.advance_developmental_stage
  split
  · split
    · cases d <;> exact ⟨rfl, rfl, rfl⟩
    · split
      · exact ⟨rfl, rfl, rfl⟩
      · exact ⟨rfl, rfl, rfl⟩
  · exact ⟨rfl, rfl, rfl⟩

theorem advance_other_fields (c : AffectiveCore) :
    (c.advance_developmental_stage).interoceptive_signals = c.interoceptive_signals ∧
    (c.advance_developmental_stage).affective_history = c.affective_history ∧
    (c.advance_developmental_stage).decision_history = c.decision_history ∧
    (c.advance_developmental_stage).current_tension = c.current_tension := by
  unfold AffectiveCore.advance_developmental_stage
  split
  · split
    · exact ⟨rfl, rfl, rfl, rfl⟩
    · split
      · exact ⟨rfl, rfl, rfl, rfl⟩
      · exact ⟨rfl, rfl, rfl, rfl⟩
  · exact ⟨rfl, rfl, rfl, rfl⟩

theorem coreInv_start : CoreInv AffectiveCore.start := by
  refine ⟨?_, ?_, ?_, ?_, ?_, ?_⟩
  · intro d; cases d <;> constructor <;> norm_num [AffectiveCore.start, initDrives]
  · intro d; cases d <;> norm_num [AffectiveCore.start, initDrives]
  · intro n; cases n <;> constructor <;> norm_num [AffectiveCore.start, initSignals]
  · intro d; cases d <;> simp [AffectiveCore.start, initDrives]
  · simp [AffectiveCore.start]
  · simp [AffectiveCore.start]

theorem coreInv_applyOp (c : AffectiveCore) (o : CoreOp) (h : CoreInv c) :
    CoreInv (applyOp c o) := by
  obtain ⟨hlev, hurg, hval, hdh, hah, hdec⟩ := h
  cases o with
  | update_drives stim dt =>
    refine ⟨?_, ?_, ?_, ?_, ?_, ?_⟩
    · intro d
      rw [show applyOp c (.update_drives stim dt) = (c.update_drives stim dt).1 from rfl,
          update_drives_fst_drives, DriveState.update_level]
      exact ⟨clip01_nonneg _, clip01_le_one _⟩
    · intro d
      rw [show applyOp c (.update_drives stim dt) = (c.update_drives stim dt).1 from rfl,
          update_drives_fst_drives, DriveState.update_urgency]
      exact ratAbs_nonneg _
    · intro n
      rw [show applyOp c (.update_drives stim dt) = (c.update_drives stim dt).1 from rfl,
          update_drives_fst_signals]
      exact hval n
    · intro d
      rw [show applyOp c (.update_drives stim dt) = (c.update_drives stim dt).1 from rfl,
          update_drives_fst_drives, DriveState.update_hist]
      exact pushBounded_length _ _ _ (hdh d)
    · obtain ⟨snap, hs⟩ := update_drives_fst_hist c stim dt
      rw [show applyOp c (.update_drives stim dt) = (c.update_drives stim dt).1 from rfl, hs]
      exact pushBounded_length _ _ _ hah
    · rw [show applyOp c (.update_drives stim dt) = (c.update_drives stim dt).1 from rfl,
          update_drives_fst_decisions]
      exact hdec
  | update_interoception changes =>
    have hdr := update_interoception_drives changes c
    obtain ⟨h1, h2, _, _⟩ := update_interoception_other_fields changes c
    refine ⟨?_, ?_, ?_, ?_, ?_, ?_⟩
    · intro d
      rw [show applyOp c (.update_interoception changes) = c.update_interoception changes from rfl,
          hdr]
      exact hlev d
    · intro d
      rw [show applyOp c (.update_interoception changes) = c.update_interoception changes from rfl,
          hdr]
      exact hurg d
    · exact update_interoception_values changes c hval
    · intro d
      rw [show applyOp c (.update_interoception changes) = c.update_interoception changes from rfl,
          hdr]
      exact hdh d
    · rw [show applyOp c (.update_interoception changes) = c.update_interoception changes from rfl,
          h1]
      exact hah
    · rw [show applyOp c (.update_interoception changes) = c.update_interoception changes from rfl,
          h2]
      exact hdec
  | record_decision ctx choice =>
    obtain ⟨g1, g2, g3, g4, g5, g6⟩ := record_decision_fields c ctx choice
    refine ⟨?_, ?_, ?_, ?_, ?_, ?_⟩
    · intro d
      rw [show applyOp c (.record_decision ctx choice) = c.record_decision ctx choice from rfl, g1]
      exact hlev d
    · intro d
      rw [show applyOp c (.record_decision ctx choice) = c.record_decision ctx choice from rfl, g1]
      exact hurg d
    · intro n
      rw [show applyOp c (.record_decision ctx choice) = c.record_decision ctx choice from rfl, g2]
      exact hval n
    · intro d
      rw [show applyOp c (.record_decision ctx choice) = c.record_decision ctx choice from rfl, g1]
      exact hdh d
    · rw [show applyOp c (.record_decision ctx choice) = c.record_decision ctx choice from rfl, g3]
      exact hah
    · rw [show applyOp c (.record_decision ctx choice) = c.record_decision ctx choice from rfl, g6]
      exact pushBounded_length _ _ _ hdec
  | advance_developmental_stage =>
    obtain ⟨g1, g2, g3, g4⟩ := advance_other_fields c
    refine ⟨?_, ?_, ?_, ?_, ?_, ?_⟩
    · intro d
      have := (advance_drive_fields c d).1
      rw [show applyOp c .advance_developmental_stage = c.advance_developmental_stage from rfl,
          this]
      exact hlev d
    · intro d
      have := (advance_drive_fields c d).2.1
      rw [show applyOp c .advance_developmental_stage = c.advance_developmental_stage from rfl,
          this]
      exact hurg d
    · intro n
      rw [show applyOp c .advance_developmental_stage = c.advance_developmental_stage from rfl, g1]
      exact hval n
    · intro d
      have := (advance_drive_fields c d).2.2
      rw [show applyOp c .advance_developmental_stage = c.advance_developmental_stage from rfl,
          this]
      exact hdh d
    · rw [show applyOp c .advance_developmental_stage = c.advance_developmental_stage from rfl, g2]
      exact hah
    · rw [show applyOp c .advance_developmental_stage = c.advance_developmental_stage from rfl, g3]
      exact hdec

theorem coreInv_runOps (ops : List CoreOp) (c : AffectiveCore) (h : CoreInv c) :
    CoreInv (runOps c ops) := by
  induction ops generalizing c with
  | nil => exact h
  | cons o rest ih => exact ih (applyOp c o) (coreInv_applyOp c o h)

theorem foldl_skip_sum {β : Type} (P : β → Bool) (f : β → ℚ) (l : List β) (a : ℚ) :
    l.foldl (fun t n => if P n then t else t + f n) a
      = a + (l.map (fun n => if P n then 0 else f n)).sum := by
  induction l generalizing a with
  | nil => simp
  | cons b rest ih => by_cases h : P b <;> simp [h, ih] <;> ring

theorem compute_interoceptive_tension_eq (c : AffectiveCore) :
    c.compute_interoceptive_tension =
      (signalOrder.map (fun n =>
        if (c.interoceptive_signals n).is_optimal then 0
        else (c.interoceptive_signals n).deviation
               * (c.interoceptive_signals n).affective_weight)).sum := by
  show signalOrder.foldl _ 0 = _
  rw [foldl_skip_sum (fun n => (c.interoceptive_signals n).is_optimal)
      (fun n => (c.interoceptive_signals n).deviation
                  * (c.interoceptive_signals n).affective_weight)]
  simp

/-- **C1.** For every stimuli mapping and delta_time, `update_drives` returns —
and stores in `current_tension` — the sum over the 7 drives of
`urgency * tension()` on the post-update drive states (each term equal to the
post-update `tension()` squared), plus the interoceptive tension, which is the
sum over every signal not in its optimal range of `deviation() * weight`
(signals within range contributing 0). -/
theorem claim_C1 (c : AffectiveCore) (stim : DriveType → ℚ) (delta_time : ℚ) :
    (c.update_drives stim delta_time).2 =
      (driveOrder.map
        (fun d => ((c.drives d).update (stim d) delta_time).tension ^ 2)).sum
        + c.compute_interoceptive_tension
    ∧ (c.update_drives stim delta_time).1.current_tension =
        (c.update_drives stim delta_time).2
    ∧ c.compute_interoceptive_tension =
        (signalOrder.map (fun n =>
          if (c.interoceptive_signals n).is_optimal then 0
          else (c.interoceptive_signals n).deviation
                 * (c.interoceptive_signals n).affective_weight)).sum := by
  refine ⟨?_, rfl, compute_interoceptive_tension_eq c⟩
  show (updateDrivesLoop c.drives stim delta_time).2
        + AffectiveCore.compute_interoceptive_tension _ = _
  rw [updateDrivesLoop_snd]
  rfl

/-- **C2.** `DriveState.update` sets the level to
`clamp(level + (optimal - level) * 0.1 + stimulus * delta_time, 0, 1)`, then
sets urgency to `|new level - optimal|`, then appends the new level to the
drive's history (with the 100-entry bound applied). -/
theorem claim_C2 (s : DriveState) (stimulus delta_time : ℚ) :
    (s.update stimulus delta_time).current_level =
      min (max (s.current_level + (s.optimal_level - s.current_level) * (1/10)
                 + stimulus * delta_time) 0) 1
    ∧ (s.update stimulus delta_time).urgency =
        |(s.update stimulus delta_time).current_level - s.optimal_level|
    ∧ (s.update stimulus delta_time).satisfaction_history =
        (if (s.satisfaction_history
              ++ [(s.update stimulus delta_time).current_level]).length > 100
         then (s.satisfaction_history
                ++ [(s.update stimulus delta_time).current_level]).tail
         else s.satisfaction_history
                ++ [(s.update stimulus delta_time).current_level]) := by
  refine ⟨?_, ?_, ?_⟩
  · rw [DriveState.update_level]
    unfold clip
    rw [ratMin_eq, ratMax_eq]
  · rw [DriveState.update_urgency, ratAbs_eq]
  · rw [DriveState.update_hist]
    rfl

/-- **C10.** On a freshly constructed core every drive's urgency is 0, so
`get_dominant_drive` returns `(SEEK, 0.0)` — the first kind in enumeration
order — even though AVOID attains the largest initial tension
`|level - optimal| = 0.2`. -/
theorem claim_C10 :
    (∀ d, (AffectiveCore.start.drives d).urgency = 0)
    ∧ AffectiveCore.start.get_dominant_drive = (some .SEEK, 0)
    ∧ (AffectiveCore.start.drives .AVOID).tension = 1/5
    ∧ (∀ d, (AffectiveCore.start.drives d).tension
              ≤ (AffectiveCore.start.drives .AVOID).tension) := by
  refine ⟨?_, ?_, ?_, ?_⟩
  · intro d; cases d <;> rfl
  · norm_num [AffectiveCore.get_dominant_drive, driveOrder, AffectiveCore.start,
      initDrives]
  · norm_num [DriveState.tension, ratAbs, AffectiveCore.start, initDrives]
  · intro d
    cases d <;> norm_num [DriveState.tension, ratAbs, AffectiveCore.start, initDrives]

theorem advance_stage1 (c : AffectiveCore) (h : c.developmental_stage = 1) :
    c.advance_developmental_stage =
      { c with
        developmental_stage := 2
        drives := fun d =>
          if d = .SEEK then { c.drives .SEEK with optimal_level := 7/10 }
          else if d = .PLAY then { c.drives .PLAY with optimal_level := 6/10 }
          else c.drives d } := by
  unfold AffectiveCore.advance_developmental_stage
  rw [h]
  rfl

theorem advance_stage2 (c : AffectiveCore) (h : c.developmental_stage = 2) :
    c.advance_developmental_stage =
      { c with
        developmental_stage := 3
        drives := fun d => { c.drives d with optimal_level := 1/2 } } := by
  unfold AffectiveCore.advance_developmental_stage
  rw [h]
  rfl

theorem advance_stage3 (c : AffectiveCore) (h : c.developmental_stage = 3) :
    c.advance_developmental_stage = c := by
  unfold AffectiveCore.advance_developmental_stage
  rw [h]
  rfl

/-- **C5.** The developmental stage starts at 1 and only
`advance_developmental_stage` changes it: from stage 1 one call yields stage 2
with SEEK optimal 0.7, PLAY optimal 0.6 and every other drive's optimal level
unchanged; from stage 2 a call yields stage 3 with every optimal level 0.5; at
stage 3 a call is a complete no-op. -/
theorem claim_C5 :
    AffectiveCore.start.developmental_stage = 1
    ∧ (∀ c : AffectiveCore, c.developmental_stage = 1 →
        c.advance_developmental_stage.developmental_stage = 2
        ∧ (c.advance_developmental_stage.drives .SEEK).optimal_level = 7/10
        ∧ (c.advance_developmental_stage.drives .PLAY).optimal_level = 6/10
        ∧ ∀ d, d ≠ .SEEK → d ≠ .PLAY →
            (c.advance_developmental_stage.drives d).optimal_level
              = (c.drives d).optimal_level)
    ∧ (∀ c : AffectiveCore, c.developmental_stage = 2 →
        c.advance_developmental_stage.developmental_stage = 3
        ∧ ∀ d, (c.advance_developmental_stage.drives d).optimal_level = 1/2)
    ∧ (∀ c : AffectiveCore, c.developmental_stage = 3 →
        c.advance_developmental_stage = c)
    ∧ (∀ (c : AffectiveCore) (stim : DriveType → ℚ) (delta_time : ℚ),
        (c.update_drives stim delta_time).1.developmental_stage
          = c.developmental_stage)
    ∧ (∀ (c : AffectiveCore) (changes : List (String × ℚ)),
        (c.update_interoception changes).developmental_stage
          = c.developmental_stage)
    ∧ (∀ (c : AffectiveCore) (ctx choice : String),
        (c.record_decision ctx choice).developmental_stage
          = c.developmental_stage) := by
  refine ⟨rfl, ?_, ?_, fun c h => advance_stage3 c h, fun c stim dt => rfl,
    fun c changes => (update_interoception_other_fields changes c).2.2.1,
    fun c ctx choice => rfl⟩
  · intro c h
    rw [advance_stage1 c h]
    refine ⟨rfl, rfl, rfl, ?_⟩
    intro d hS hP
    simp [hS, hP]
  · intro c h
    rw [advance_stage2 c h]
    exact ⟨rfl, fun d => rfl⟩

/-- **C5 witness**: the stage chain on a concrete core — one advance from the
fresh core reaches stage 2, a second reaches stage 3 with all optimal levels
0.5, and a third is a no-op. -/
theorem claim_C5_witness :
    AffectiveCore.start.advance_developmental_stage.developmental_stage = 2
    ∧ (AffectiveCore.start.advance_developmental_stage.advance_developmental_stage.drives
        .AVOID).optimal_level = 1/2
    ∧ AffectiveCore.start.advance_developmental_stage.advance_developmental_stage.advance_developmental_stage
        = AffectiveCore.start.advance_developmental_stage.advance_developmental_stage := by
  refine ⟨(claim_C5.2.1 AffectiveCore.start rfl).1, ?_, ?_⟩
  · exact (claim_C5.2.2.1 AffectiveCore.start.advance_developmental_stage
      (claim_C5.2.1 AffectiveCore.start rfl).1).2 .AVOID
  · exact claim_C5.2.2.2.1 _
      (claim_C5.2.2.1 AffectiveCore.start.advance_developmental_stage
        (claim_C5.2.1 AffectiveCore.start rfl).1).1

/-- **C3 counterexample.** The claimed invariant `urgency = |level - optimal|`
is not preserved by operation sequences on a fresh core: after one
`update_drives` tick (which establishes it) a developmental-stage advance
changes SEEK's optimal level without recomputing its urgency. -/
theorem claim_C3_counterexample :
    ¬ ((c3core.drives .SEEK).urgency =
        |(c3core.drives .SEEK).current_level - (c3core.drives .SEEK).optimal_level|) := by
  have e1 : c3core =
      ((AffectiveCore.start.update_drives (fun _ => 0) 1).1).advance_developmental_stage := rfl
  have e2 : c3core.drives .SEEK =
      { ((AffectiveCore.start.update_drives (fun _ => 0) 1).1.drives .SEEK) with
        optimal_level := 7/10 } := by
    rw [e1, advance_stage1 _ rfl]
    simp
  have e3 : (AffectiveCore.start.update_drives (fun _ => 0) 1).1.drives .SEEK =
      (AffectiveCore.start.drives .SEEK).update 0 1 :=
    congrFun (update_drives_fst_drives AffectiveCore.start (fun _ => 0) 1) .SEEK
  rw [e2, e3]
  norm_num [DriveState.update, DriveState.tension, clip, ratMin, ratMax, ratAbs,
    AffectiveCore.start, initDrives]
  rw [show |(19:ℚ)/100| = 19/100 from abs_of_pos (by norm_num)]
  norm_num

/-- **C3 (amended).** Immediately after any `DriveState.update` call the
level lies in [0,1] and the urgency equals `|level - optimal|`; and on a
freshly constructed core every sequence of public operations keeps every
drive level and every signal value in [0,1].  (The equality
`urgency = |level - optimal|` is, however, not preserved as a state invariant
across sequences — see the counterexample — since `advance_developmental_stage`
changes optimal levels without recomputing urgencies, and a fresh core starts
with all urgencies 0.) -/
theorem claim_C3_amended :
    (∀ (s : DriveState) (stimulus delta_time : ℚ),
        0 ≤ (s.update stimulus delta_time).current_level
        ∧ (s.update stimulus delta_time).current_level ≤ 1
        ∧ (s.update stimulus delta_time).urgency =
            |(s.update stimulus delta_time).current_level
              - (s.update stimulus delta_time).optimal_level|)
    ∧ (∀ ops : List CoreOp,
        (∀ d, 0 ≤ ((runOps AffectiveCore.start ops).drives d).current_level
              ∧ ((runOps AffectiveCore.start ops).drives d).current_level ≤ 1)
        ∧ (∀ n, 0 ≤ ((runOps AffectiveCore.start ops).interoceptive_signals n).current_value
              ∧ ((runOps AffectiveCore.start ops).interoceptive_signals n).current_value ≤ 1)) := by
  constructor
  · intro s stimulus delta_time
    refine ⟨?_, ?_, ?_⟩
    · rw [DriveState.update_level]; exact clip01_nonneg _
    · rw [DriveState.update_level]; exact clip01_le_one _
    · rw [DriveState.update_urgency, ratAbs_eq, DriveState.update_optimal]
  · intro ops
    have h := coreInv_runOps ops AffectiveCore.start coreInv_start
    exact ⟨h.1, h.2.2.1⟩

/-- **C4.** Over every sequence of public operations on a fresh core, each
drive's history stays within 100 entries, `affective_history` within 1000 and
`decision_history` within 500; and whenever one of these histories is at
capacity, the bounded push evicts exactly the oldest entry (FIFO). -/
theorem claim_C4 :
    (∀ ops : List CoreOp,
        (∀ d, ((runOps AffectiveCore.start ops).drives d).satisfaction_history.length ≤ 100)
        ∧ (runOps AffectiveCore.start ops).affective_history.length ≤ 1000
        ∧ (runOps AffectiveCore.start ops).decision_history.length ≤ 500)
    ∧ (∀ (x : ℚ) (l : List ℚ), l.length = 100 →
        pushBounded 100 x l = l.tail ++ [x])
    ∧ (∀ (x : Snapshot) (l : List Snapshot), l.length = 1000 →
        pushBounded 1000 x l = l.tail ++ [x])
    ∧ (∀ (x : Decision) (l : List Decision), l.length = 500 →
        pushBounded 500 x l = l.tail ++ [x]) := by
  refine ⟨?_, ?_, ?_, ?_⟩
  · intro ops
    have h := coreInv_runOps ops AffectiveCore.start coreInv_start
    exact ⟨h.2.2.2.1, h.2.2.2.2.1, h.2.2.2.2.2⟩
  · intro x l h; exact pushBounded_full 100 x l h (by omega)
  · intro x l h; exact pushBounded_full 1000 x l h (by omega)
  · intro x l h; exact pushBounded_full 500 x l h (by omega)

/-- **C4 witness**: the FIFO eviction clauses applied to concrete
at-capacity histories. -/
theorem claim_C4_witness :
    pushBounded 100 (0:ℚ) (List.replicate 100 0) = (List.replicate 100 0).tail ++ [0]
    ∧ pushBounded 1000 snap0 (List.replicate 1000 snap0)
        = (List.replicate 1000 snap0).tail ++ [snap0]
    ∧ pushBounded 500 decision0 (List.replicate 500 decision0)
        = (List.replicate 500 decision0).tail ++ [decision0] :=
  ⟨claim_C4.2.1 0 _ (by rw [List.length_replicate]),
   claim_C4.2.2.1 snap0 _ (by rw [List.length_replicate]),
   claim_C4.2.2.2 decision0 _ (by rw [List.length_replicate])⟩

theorem row_foldl (u : DriveType → ℚ) (d : DriveType) (l : List DriveType) (acc : ℚ) :
    l.foldl (fun a x => if drivesOpposed d x then a + u d * u x else a) acc
      = acc + (l.map (fun x => if drivesOpposed d x then u d * u x else 0)).sum := by
  induction l generalizing acc with
  | nil => simp
  | cons b rest ih =>
    by_cases h : drivesOpposed d b <;> simp [h, ih] <;> ring

theorem pairConflicts_spec (u : DriveType → ℚ) (l : List DriveType) (acc : ℚ) :
    pairConflicts u l acc = acc + specPairs u l := by
  induction l generalizing acc with
  | nil => simp [pairConflicts, specPairs]
  | cons d rest ih =>
    simp only [pairConflicts, specPairs]
    rw [row_foldl, ih]
    ring

theorem specPairs_filter_cons (u : DriveType → ℚ) (p : DriveType → Bool)
    (d : DriveType) (rest : List DriveType) :
    specPairs u ((d :: rest).filter p)
      = (if p d
         then ((rest.filter p).map
                (fun x => if drivesOpposed d x then u d * u x else 0)).sum
         else 0)
        + specPairs u (rest.filter p) := by
  by_cases h : p d <;> simp [List.filter_cons, h, specPairs]

theorem mapsum_filter (p : DriveType → Bool) (f : DriveType → ℚ) (l : List DriveType) :
    ((l.filter p).map f).sum = (l.map (fun x => if p x then f x else 0)).sum := by
  induction l with
  | nil => simp
  | cons b rest ih => by_cases h : p b <;> simp [List.filter_cons, h, ih]

theorem pairConflicts_filter_driveOrder (u : DriveType → ℚ) (p : DriveType → Bool) :
    pairConflicts u (driveOrder.filter p) 0 =
      (if p .SEEK then (if p .AVOID then u .SEEK * u .AVOID else 0) else 0)
      + (if p .REST then (if p .PLAY then u .REST * u .PLAY else 0) else 0)
      + (if p .CARE then (if p .RAGE then u .CARE * u .RAGE else 0) else 0) := by
  rw [pairConflicts_spec, zero_add]
  rw [show driveOrder
        = [DriveType.SEEK, .AVOID, .REST, .CARE, .PLAY, .RAGE, .LUST] from rfl]
  rw [specPairs_filter_cons, specPairs_filter_cons, specPairs_filter_cons,
      specPairs_filter_cons, specPairs_filter_cons, specPairs_filter_cons,
      specPairs_filter_cons]
  rw [mapsum_filter, mapsum_filter, mapsum_filter, mapsum_filter, mapsum_filter,
      mapsum_filter, mapsum_filter]
  simp [drivesOpposed, specPairs]
  ring_nf

/-- **C6.** `compute_affective_conflict` returns exactly 0 whenever fewer than
two drives have urgency above 0.3; otherwise it returns the sum, over the
opposed pairs {SEEK,AVOID}, {RAGE,CARE}, {PLAY,REST} whose two members are
both urgent, of the product of the two urgencies — pairs involving LUST and
non-opposed pairs contribute nothing.  (The embedded function is a pure
function of the core: the call mutates no state.) -/
theorem claim_C6 (c : AffectiveCore) :
    (c.urgentDrives.length < 2 → c.compute_affective_conflict = 0)
    ∧ (2 ≤ c.urgentDrives.length →
        c.compute_affective_conflict =
          (if (c.drives .SEEK).urgency > 3/10 ∧ (c.drives .AVOID).urgency > 3/10
            then (c.drives .SEEK).urgency * (c.drives .AVOID).urgency else 0)
          + (if (c.drives .RAGE).urgency > 3/10 ∧ (c.drives .CARE).urgency > 3/10
            then (c.drives .RAGE).urgency * (c.drives .CARE).urgency else 0)
          + (if (c.drives .PLAY).urgency > 3/10 ∧ (c.drives .REST).urgency > 3/10
            then (c.drives .PLAY).urgency * (c.drives .REST).urgency else 0)) := by
  constructor
  · intro h
    simp only [AffectiveCore.compute_affective_conflict]
    rw [if_pos h]
  · intro h
    simp only [AffectiveCore.compute_affective_conflict]
    rw [if_neg (not_lt.mpr h)]
    show pairConflicts _ (driveOrder.filter _) 0 = _
    rw [pairConflicts_filter_driveOrder]
    by_cases hS : (c.drives .SEEK).urgency > 3/10 <;>
      by_cases hA : (c.drives .AVOID).urgency > 3/10 <;>
      by_cases hR : (c.drives .REST).urgency > 3/10 <;>
      by_cases hC : (c.drives .CARE).urgency > 3/10 <;>
      by_cases hP : (c.drives .PLAY).urgency > 3/10 <;>
      by_cases hRg : (c.drives .RAGE).urgency > 3/10 <;>
      simp [hS, hA, hR, hC, hP, hRg, mul_comm] <;> ring

theorem c6core_drives (d : DriveType) :
    c6core.drives d = (AffectiveCore.start.drives d).update (c6stim d) 1 :=
  congrFun (update_drives_fst_drives AffectiveCore.start c6stim 1) d

theorem c6core_urgency_SEEK : (c6core.drives .SEEK).urgency = 6/10 := by
  rw [c6core_drives]
  norm_num [DriveState.update, DriveState.tension, clip, ratMin, ratMax, ratAbs,
    AffectiveCore.start, initDrives, c6stim]

theorem c6core_urgency_AVOID : (c6core.drives .AVOID).urgency = 9/10 := by
  rw [c6core_drives]
  norm_num [DriveState.update, DriveState.tension, clip, ratMin, ratMax, ratAbs,
    AffectiveCore.start, initDrives, c6stim]

theorem c6core_urgency_REST : (c6core.drives .REST).urgency = 9/50 := by
  rw [c6core_drives]
  norm_num [DriveState.update, DriveState.tension, clip, ratMin, ratMax, ratAbs,
    AffectiveCore.start, initDrives, c6stim]

theorem c6core_urgency_CARE : (c6core.drives .CARE).urgency = 9/100 := by
  rw [c6core_drives]
  norm_num [DriveState.update, DriveState.tension, clip, ratMin, ratMax, ratAbs,
    AffectiveCore.start, initDrives, c6stim]

theorem c6core_urgency_PLAY : (c6core.drives .PLAY).urgency = 9/100 := by
  rw [c6core_drives]
  norm_num [DriveState.update, DriveState.tension, clip, ratMin, ratMax, ratAbs,
    AffectiveCore.start, initDrives, c6stim]

theorem c6core_urgency_RAGE : (c6core.drives .RAGE).urgency = 9/200 := by
  rw [c6core_drives]
  norm_num [DriveState.update, DriveState.tension, clip, ratMin, ratMax, ratAbs,
    AffectiveCore.start, initDrives, c6stim]

theorem c6core_urgency_LUST : (c6core.drives .LUST).urgency = 9/100 := by
  rw [c6core_drives]
  norm_num [DriveState.update, DriveState.tension, clip, ratMin, ratMax, ratAbs,
    AffectiveCore.start, initDrives, c6stim]

theorem c6core_urgent : c6core.urgentDrives = [.SEEK, .AVOID] := by
  have bS : decide ((c6core.drives .SEEK).urgency > 3/10) = true := by
    rw [c6core_urgency_SEEK]; simp only [decide_eq_true_eq]; norm_num
  have bA : decide ((c6core.drives .AVOID).urgency > 3/10) = true := by
    rw [c6core_urgency_AVOID]; simp only [decide_eq_true_eq]; norm_num
  have bR : decide ((c6core.drives .REST).urgency > 3/10) = false := by
    rw [c6core_urgency_REST]; simp only [decide_eq_false_iff_not]; norm_num
  have bC : decide ((c6core.drives .CARE).urgency > 3/10) = false := by
    rw [c6core_urgency_CARE]; simp only [decide_eq_false_iff_not]; norm_num
  have bP : decide ((c6core.drives .PLAY).urgency > 3/10) = false := by
    rw [c6core_urgency_PLAY]; simp only [decide_eq_false_iff_not]; norm_num
  have bRg : decide ((c6core.drives .RAGE).urgency > 3/10) = false := by
    rw [c6core_urgency_RAGE]; simp only [decide_eq_false_iff_not]; norm_num
  have bL : decide ((c6core.drives .LUST).urgency > 3/10) = false := by
    rw [c6core_urgency_LUST]; simp only [decide_eq_false_iff_not]; norm_num
  show driveOrder.filter _ = _
  rw [show driveOrder
        = [DriveType.SEEK, .AVOID, .REST, .CARE, .PLAY, .RAGE, .LUST] from rfl]
  simp only [List.filter_cons, bS, bA, bR, bC, bP, bRg, bL]
  simp

theorem start_urgent : AffectiveCore.start.urgentDrives = [] := by
  have b : ∀ d, decide ((AffectiveCore.start.drives d).urgency > 3/10) = false := by
    intro d
    cases d <;> (simp only [decide_eq_false_iff_not]
                 norm_num [AffectiveCore.start, initDrives])
  show driveOrder.filter _ = _
  rw [show driveOrder
        = [DriveType.SEEK, .AVOID, .REST, .CARE, .PLAY, .RAGE, .LUST] from rfl]
  simp only [List.filter_cons, b]
  simp

/-- **C6 witness**: on the fresh core (no urgent drive) the conflict is 0, and
on a core whose SEEK and AVOID urgencies are 0.6 and 0.9 the conflict is
their product 0.54. -/
theorem claim_C6_witness :
    AffectiveCore.start.compute_affective_conflict = 0
    ∧ c6core.compute_affective_conflict = 27/50 := by
  constructor
  · exact (claim_C6 AffectiveCore.start).1 (by rw [start_urgent]; simp)
  · have h2 : 2 ≤ c6core.urgentDrives.length := by rw [c6core_urgent]; simp
    rw [(claim_C6 c6core).2 h2, c6core_urgency_SEEK, c6core_urgency_AVOID,
        c6core_urgency_REST, c6core_urgency_CARE, c6core_urgency_PLAY,
        c6core_urgency_RAGE]
    norm_num

theorem get_dominant_drive_eq (c : AffectiveCore) :
    c.get_dominant_drive =
      driveOrder.foldl (dominantStep (fun d => (c.drives d).urgency)) (none, -1) := rfl

theorem dominantFold_spec (u : DriveType → ℚ) (l : List DriveType) :
    ∀ b : DriveType,
      ∃ d, l.foldl (dominantStep u) (some b, u b) = (some d, u d)
        ∧ (∀ x ∈ l, u x ≤ u d)
        ∧ u b ≤ u d
        ∧ (d = b ∨ ∃ l1 l2, l = l1 ++ d :: l2 ∧ u b < u d ∧ ∀ x ∈ l1, u x < u d) := by
  induction l with
  | nil =>
    intro b
    exact ⟨b, rfl, by simp, le_refl _, Or.inl rfl⟩
  | cons a rest ih =>
    intro b
    by_cases h : u a > u b
    · have hstep : dominantStep u (some b, u b) a = (some a, u a) := by
        simp [dominantStep, h]
      obtain ⟨d, hd, hall, hba, hcase⟩ := ih a
      refine ⟨d, ?_, ?_, le_trans (le_of_lt h) hba, ?_⟩
      · rw [List.foldl_cons, hstep]; exact hd
      · intro x hx
        rcases List.mem_cons.mp hx with rfl | hx'
        · exact hba
        · exact hall x hx'
      · right
        rcases hcase with rfl | ⟨l1, l2, hl, hlt, hpre⟩
        · exact ⟨[], rest, rfl, h, by simp⟩
        · refine ⟨a :: l1, l2, by rw [hl]; simp, lt_trans h hlt, ?_⟩
          intro x hx
          rcases List.mem_cons.mp hx with rfl | hx'
          · exact hlt
          · exact hpre x hx'
    · have hstep : dominantStep u (some b, u b) a = (some b, u b) := by
        simp [dominantStep, h]
      obtain ⟨d, hd, hall, hbb, hcase⟩ := ih b
      refine ⟨d, ?_, ?_, hbb, ?_⟩
      · rw [List.foldl_cons, hstep]; exact hd
      · intro x hx
        rcases List.mem_cons.mp hx with rfl | hx'
        · exact le_trans (not_lt.mp h) hbb
        · exact hall x hx'
      · rcases hcase with rfl | ⟨l1, l2, hl, hlt, hpre⟩
        · exact Or.inl rfl
        · refine Or.inr ⟨a :: l1, l2, by rw [hl]; simp, hlt, ?_⟩
          intro x hx
          rcases List.mem_cons.mp hx with rfl | hx'
          · exact lt_of_le_of_lt (not_lt.mp h) hlt
          · exact hpre x hx'

/-- **C7.** `get_dominant_drive` returns a drive kind `d` attaining the
maximal urgency, together with that urgency, and every drive enumerated
before `d` in the fixed kind order (the prefix `l1` of
`driveOrder = l1 ++ d :: l2`) has strictly smaller urgency — i.e. on ties the
earliest-enumerated drive wins (strict `>` against a running maximum). -/
theorem claim_C7 (c : AffectiveCore) (h : ∀ d, 0 ≤ (c.drives d).urgency) :
    ∃ d l1 l2,
      driveOrder = l1 ++ d :: l2
      ∧ c.get_dominant_drive = (some d, (c.drives d).urgency)
      ∧ (∀ x, (c.drives x).urgency ≤ (c.drives d).urgency)
      ∧ (∀ x ∈ l1, (c.drives x).urgency < (c.drives d).urgency) := by
  have h0 : c.get_dominant_drive
      = ([DriveType.AVOID, .REST, .CARE, .PLAY, .RAGE, .LUST]).foldl
          (dominantStep (fun d => (c.drives d).urgency))
          (some .SEEK, (c.drives .SEEK).urgency) := by
    rw [get_dominant_drive_eq,
        show driveOrder
          = DriveType.SEEK :: [DriveType.AVOID, .REST, .CARE, .PLAY, .RAGE, .LUST]
          from rfl,
        List.foldl_cons]
    have hgt : (c.drives .SEEK).urgency > (-1 : ℚ) :=
      lt_of_lt_of_le (by norm_num) (h .SEEK)
    rw [show dominantStep (fun d => (c.drives d).urgency) (none, -1) .SEEK
          = (some .SEEK, (c.drives .SEEK).urgency) by simp [dominantStep, hgt]]
  obtain ⟨d, hd, hall, hb, hcase⟩ :=
    dominantFold_spec (fun d => (c.drives d).urgency)
      [DriveType.AVOID, .REST, .CARE, .PLAY, .RAGE, .LUST] .SEEK
  rcases hcase with rfl | ⟨l1, l2, hl, hlt, hpre⟩
  · refine ⟨.SEEK, [], [DriveType.AVOID, .REST, .CARE, .PLAY, .RAGE, .LUST],
      rfl, by rw [h0]; exact hd, ?_, by simp⟩
    intro x
    cases x
    case SEEK => exact le_refl _
    all_goals exact hall _ (by simp)
  · refine ⟨d, .SEEK :: l1, l2, ?_, by rw [h0]; exact hd, ?_, ?_⟩
    · rw [show driveOrder
            = DriveType.SEEK :: [DriveType.AVOID, .REST, .CARE, .PLAY, .RAGE, .LUST]
            from rfl, hl]
      simp
    · intro x
      cases x
      case SEEK => exact hb
      all_goals exact hall _ (by simp)
    · intro x hx
      rcases List.mem_cons.mp hx with rfl | hx'
      · exact hlt
      · exact hpre x hx'

/-- **C7 witness**: the dominant-drive characterization applied to the fresh
core, whose urgencies are all 0 (so SEEK, the first-enumerated drive, wins
the tie). -/
theorem claim_C7_witness :
    ∃ d l1 l2,
      driveOrder = l1 ++ d :: l2
      ∧ AffectiveCore.start.get_dominant_drive
          = (some d, (AffectiveCore.start.drives d).urgency)
      ∧ (∀ x, (AffectiveCore.start.drives x).urgency
                ≤ (AffectiveCore.start.drives d).urgency)
      ∧ (∀ x ∈ l1, (AffectiveCore.start.drives x).urgency
                < (AffectiveCore.start.drives d).urgency) :=
  claim_C7 AffectiveCore.start
    (fun d => by cases d <;> norm_num [AffectiveCore.start, initDrives])

theorem loopE_eq_loop (stim : DriveType → PyVal) (delta_time : ℚ) :
    ∀ (l : List DriveType) (drives : DriveType → DriveState) (total : ℚ),
      (∀ d ∈ l, stim d ≠ .nonNum) →
      updateDrivesLoopE l drives stim delta_time total =
        .ok (l.foldl
          (fun acc d =>
            let ds := (acc.1 d).update ((stim d).toQ) delta_time
            (fun x => if x = d then ds else acc.1 x, acc.2 + ds.urgency * ds.tension))
          (drives, total)) := by
  intro l
  induction l with
  | nil => intro drives total _; rfl
  | cons a rest ih =>
    intro drives total h
    have ha : stim a ≠ .nonNum := h a (List.mem_cons_self a rest)
    cases hsa : stim a with
    | nonNum => exact absurd hsa ha
    | num q =>
      simp only [updateDrivesLoopE, hsa, DriveState.updateE, List.foldl_cons, PyVal.toQ]
      exact ih _ _ (fun d hd => h d (List.mem_cons_of_mem a hd))

theorem update_drivesE_ok (c : AffectiveCore) (stim : DriveType → PyVal)
    (delta_time : ℚ) (h : ∀ d, stim d ≠ .nonNum) :
    c.update_drivesE stim delta_time
      = .ok (c.update_drives (fun d => (stim d).toQ) delta_time) := by
  unfold AffectiveCore.update_drivesE
  rw [loopE_eq_loop stim delta_time driveOrder c.drives 0 (fun d _ => h d)]
  rfl

theorem loopE_error_spec (stim : DriveType → PyVal) (delta_time : ℚ) :
    ∀ (l : List DriveType), l.Nodup →
      ∀ (drives : DriveType → DriveState) (total : ℚ) (dr : DriveType → DriveState),
        updateDrivesLoopE l drives stim delta_time total = .error dr →
        ∃ l1 bad l2, l = l1 ++ bad :: l2
          ∧ stim bad = .nonNum
          ∧ (∀ x ∈ l1, stim x ≠ .nonNum)
          ∧ (∀ x ∈ l1, dr x = (drives x).update ((stim x).toQ) delta_time)
          ∧ (∀ x, x ∉ l1 → dr x = drives x) := by
  intro l
  induction l with
  | nil =>
    intro _ drives total dr h
    exact absurd h (by simp [updateDrivesLoopE])
  | cons a rest ih =>
    intro hnd drives total dr h
    cases hsa : stim a with
    | nonNum =>
      have hdr : drives = dr := by
        have h2 : updateDrivesLoopE (a :: rest) drives stim delta_time total
            = .error drives := by
          simp only [updateDrivesLoopE, hsa, DriveState.updateE]
        rw [h2] at h
        exact (Except.error.injEq _ _).mp h
      refine ⟨[], a, rest, rfl, hsa, by simp, by simp, fun x _ => (hdr ▸ rfl)⟩
    | num q =>
      have hstep : updateDrivesLoopE (a :: rest) drives stim delta_time total
          = updateDrivesLoopE rest
              (fun x => if x = a then (drives a).update q delta_time else drives x)
              stim delta_time
              (total + ((drives a).update q delta_time).urgency
                         * ((drives a).update q delta_time).tension) := by
        simp only [updateDrivesLoopE, hsa, DriveState.updateE]
      rw [hstep] at h
      obtain ⟨l1, bad, l2, hl, hbad, hnum, hupd, hpres⟩ :=
        ih (List.Nodup.of_cons hnd) _ _ _ h
      have hanotin : a ∉ rest := (List.nodup_cons.mp hnd).1
      have hanotl1 : a ∉ l1 := fun hx => hanotin (hl ▸ List.mem_append_left _ hx)
      refine ⟨a :: l1, bad, l2, by rw [hl]; simp, hbad, ?_, ?_, ?_⟩
      · intro x hx
        rcases List.mem_cons.mp hx with rfl | hx'
        · rw [hsa]; simp
        · exact hnum x hx'
      · intro x hx
        rcases List.mem_cons.mp hx with rfl | hx'
        · rw [hpres x hanotl1]
          simp [hsa, PyVal.toQ]
        · have hxa : x ≠ a := fun hh => hanotl1 (hh ▸ hx')
          rw [hupd x hx']
          simp [hxa]
      · intro x hx
        have hxa : x ≠ a := fun hh => hx (hh ▸ List.mem_cons_self a l1)
        have hxl1 : x ∉ l1 := fun hh => hx (List.mem_cons_of_mem a hh)
        rw [hpres x hxl1]
        simp [hxa]

theorem update_drivesE_error_spec (c : AffectiveCore) (stim : DriveType → PyVal)
    (delta_time : ℚ) (st : AffectiveCore)
    (h : c.update_drivesE stim delta_time = .error st) :
    st.interoceptive_signals = c.interoceptive_signals
    ∧ st.affective_history = c.affective_history
    ∧ st.decision_history = c.decision_history
    ∧ st.current_tension = c.current_tension
    ∧ st.developmental_stage = c.developmental_stage
    ∧ ∃ l1 bad l2, driveOrder = l1 ++ bad :: l2
        ∧ stim bad = .nonNum
        ∧ (∀ x ∈ l1, stim x ≠ .nonNum)
        ∧ (∀ x ∈ l1, st.drives x = (c.drives x).update ((stim x).toQ) delta_time)
        ∧ (∀ x, x ∉ l1 → st.drives x = c.drives x) := by
  unfold AffectiveCore.update_drivesE at h
  cases hl : updateDrivesLoopE driveOrder c.drives stim delta_time 0 with
  | ok r =>
    rw [hl] at h
    simp at h
  | error dr =>
    rw [hl] at h
    simp only [Except.error.injEq] at h
    obtain ⟨l1, bad, l2, hsplit, hbad, hnum, hupd, hpres⟩ :=
      loopE_error_spec stim delta_time driveOrder (by decide) c.drives 0 dr hl
    subst h
    exact ⟨rfl, rfl, rfl, rfl, rfl, l1, bad, l2, hsplit, hbad, hnum, hupd, hpres⟩

/-- **C8 counterexample.** `update_drives` is not strongly exception-safe: on a
stimuli dict whose SEEK value is numeric but whose AVOID value is non-numeric,
the call fails, yet SEEK — updated in place before the failure — no longer has
its prior state. -/
theorem claim_C8_counterexample :
    AffectiveCore.start.update_drivesE c8stim 1 = .error c8leftover
    ∧ ¬ (c8leftover.drives .SEEK = AffectiveCore.start.drives .SEEK) := by
  constructor
  · rfl
  · intro heq
    have hl := congrArg DriveState.current_level heq
    norm_num [c8leftover, DriveState.update, clip, ratMin, ratMax,
      AffectiveCore.start, initDrives] at hl

/-- **C8 (amended).** When every stimulus value is numeric, `update_drives`
succeeds with its normal result.  When a stimulus value is non-numeric the
call fails, and the escaping exception leaves the signals, both histories, the
stored tension and the stage unchanged — but NOT the drives: every drive
iterated before the first failing one keeps its in-place update, while the
failing drive and all later ones are unchanged (no rollback, so prior state is
not fully preserved). -/
theorem claim_C8_amended :
    (∀ (c : AffectiveCore) (stim : DriveType → PyVal) (delta_time : ℚ),
       (∀ d, stim d ≠ .nonNum) →
       c.update_drivesE stim delta_time
         = .ok (c.update_drives (fun d => (stim d).toQ) delta_time))
    ∧ (∀ (c : AffectiveCore) (stim : DriveType → PyVal) (delta_time : ℚ)
         (st : AffectiveCore),
       c.update_drivesE stim delta_time = .error st →
       st.interoceptive_signals = c.interoceptive_signals
       ∧ st.affective_history = c.affective_history
       ∧ st.decision_history = c.decision_history
       ∧ st.current_tension = c.current_tension
       ∧ st.developmental_stage = c.developmental_stage
       ∧ ∃ l1 bad l2, driveOrder = l1 ++ bad :: l2
           ∧ stim bad = .nonNum
           ∧ (∀ x ∈ l1, stim x ≠ .nonNum)
           ∧ (∀ x ∈ l1, st.drives x = (c.drives x).update ((stim x).toQ) delta_time)
           ∧ (∀ x, x ∉ l1 → st.drives x = c.drives x)) :=
  ⟨update_drivesE_ok, update_drivesE_error_spec⟩

/-- **C8 witness**: the all-numeric clause applied to a concrete stimuli map,
and the failure clause applied to the concrete failing call (showing the
stored tension survives that failure). -/
theorem claim_C8_amended_witness :
    AffectiveCore.start.update_drivesE (fun _ => PyVal.num 0) 1
        = .ok (AffectiveCore.start.update_drives (fun _ => (PyVal.num 0).toQ) 1)
    ∧ c8leftover.current_tension = AffectiveCore.start.current_tension := by
  constructor
  · exact claim_C8_amended.1 AffectiveCore.start (fun _ => .num 0) 1 (fun d => by simp)
  · exact (claim_C8_amended.2 AffectiveCore.start c8stim 1 c8leftover rfl).2.2.2.1

theorem find?_middle_skip {α : Type} (p : α → Bool) (l1 : List α) (l2 : List α)
    (a : α) (h : p a = false) :
    (l1 ++ a :: l2).find? p = (l1 ++ l2).find? p := by
  induction l1 with
  | nil =>
    simp only [List.nil_append]
    rw [List.find?_cons_of_neg _ (by simp [h])]
  | cons b l1 ih =>
    by_cases hb : p b = true
    · simp only [List.cons_append]
      rw [List.find?_cons_of_pos _ hb, List.find?_cons_of_pos _ hb]
    · simp only [List.cons_append]
      rw [List.find?_cons_of_neg _ hb, List.find?_cons_of_neg _ hb, ih]

theorem lookupStim_middle (m1 m2 : List (StimKey × ℚ)) (s : String) (q : ℚ) :
    lookupStim (m1 ++ (StimKey.other s, q) :: m2) = lookupStim (m1 ++ m2) := by
  funext d
  unfold lookupStim
  rw [find?_middle_skip _ _ _ _ (by simp)]

/-- **C9 counterexample.** `update_drives` does not reject a stimuli dict
containing a key outside the 7 drive kinds: the call completes normally and
returns exactly what it returns without that entry — the unknown key is
silently ignored (the loop only ever looks keys of the 7 kinds up via
`.get(kind, 0.0)`). -/
theorem claim_C9_counterexample :
    AffectiveCore.start.update_drives_dict [(StimKey.other "typo_key", 5)] 1
      = AffectiveCore.start.update_drives_dict [] 1 := by
  unfold AffectiveCore.update_drives_dict
  rw [show lookupStim [(StimKey.other "typo_key", 5)] = lookupStim [] from
      lookupStim_middle [] [] "typo_key" 5]

/-- **C9 (amended).** `update_drives` silently ignores stimuli entries whose
key is not one of the 7 drive kinds (no error; the result is identical with
or without such entries), just as `update_interoception` silently ignores
change entries whose name is not one of the fixed signal names. -/
theorem claim_C9_amended :
    (∀ (c : AffectiveCore) (m1 m2 : List (StimKey × ℚ)) (s : String)
       (q delta_time : ℚ),
        c.update_drives_dict (m1 ++ (StimKey.other s, q) :: m2) delta_time =
          c.update_drives_dict (m1 ++ m2) delta_time)
    ∧ (∀ (c : AffectiveCore) (ch1 ch2 : List (String × ℚ)) (nm : String) (q : ℚ),
        parseSignalName nm = none →
        c.update_interoception (ch1 ++ (nm, q) :: ch2) =
          c.update_interoception (ch1 ++ ch2)) := by
  constructor
  · intro c m1 m2 s q delta_time
    unfold AffectiveCore.update_drives_dict
    rw [lookupStim_middle]
  · intro c ch1 ch2 nm q hnone
    unfold AffectiveCore.update_interoception
    rw [List.foldl_append, List.foldl_append, List.foldl_cons,
        show interoStep (List.foldl interoStep c ch1) (nm, q)
            = List.foldl interoStep c ch1 by unfold interoStep; rw [hnone]]

/-- **C9 witness**: a stimuli dict with one unknown key behaves like the same
dict without it, and an interoception update with one unknown name behaves
like the empty update. -/
theorem claim_C9_amended_witness :
    AffectiveCore.start.update_drives_dict
        [(StimKey.drive .SEEK, 1), (StimKey.other "bogus_key", 2)] 1
      = AffectiveCore.start.update_drives_dict [(StimKey.drive .SEEK, 1)] 1
    ∧ AffectiveCore.start.update_interoception [("bogus_key", 2)]
      = AffectiveCore.start.update_interoception [] :=
  ⟨claim_C9_amended.1 AffectiveCore.start [(StimKey.drive .SEEK, 1)] [] "bogus_key" 2 1,
   claim_C9_amended.2 AffectiveCore.start [] [] "bogus_key" 2
     (by simp [parseSignalName])⟩
